import Mathlib

/-!
Verification of the Membership Provisioning Engine of the
monashcoding/password-manager-bot repository.

The TypeScript sources are shallowly embedded: module-level mutable caches
become explicit state records threaded through the functions, `Date.now()`
becomes an explicit `now : Int` parameter (milliseconds), HTTP calls become
explicit response parameters or oracles, and each command handler becomes a
pure function from its observed inputs to an outcome together with the list
of vault-mutating calls it issues.
-/

/-! ### String helpers mirroring the JavaScript string primitives used -/

/-- `charsStartWith pat s` : does `s` start with the character list `pat`?
Mirrors the prefix test underlying `String.prototype.includes`. -/
def charsStartWith : List Char → List Char → Bool
  | [], _ => true
  | _ :: _, [] => false
  | a :: as, b :: bs => a == b && charsStartWith as bs

/-- `charsContain pat s` : does `pat` occur contiguously inside `s`? -/
def charsContain (pat : List Char) : List Char → Bool
  | [] => pat.isEmpty
  | c :: rest => charsStartWith pat (c :: rest) || charsContain pat rest

/-- Embedding of JavaScript `hay.includes(pat)` (substring containment). -/
def strIncludes (hay pat : String) : Bool :=
  charsContain pat.data hay.data

/-- Embedding of JavaScript `s.toLowerCase()` (ASCII case folding suffices
for the constant patterns compared against in the source). -/
def lowerStr (s : String) : String :=
  ⟨s.data.map Char.toLower⟩

/-- Embedding of JavaScript `s.trim()`: strip leading and trailing
whitespace. -/
def jsTrim (s : String) : String :=
  ⟨((s.data.dropWhile Char.isWhitespace).reverse.dropWhile Char.isWhitespace).reverse⟩

/-! ### Session Cache (src/services/bitwarden.ts, getBitwardenToken)

Module state `cachedToken` / `tokenExpiry` becomes `TokenState`; the POST to
`/identity/connect/token` becomes the `authResp` parameter: `some (tok, E)`
is a 2xx response `{access_token := tok, expires_in := E}` (seconds), `none`
is a failed exchange (the source then throws, embedded as `Except.error`).
-/

structure TokenState where
  cachedToken : Option String
  tokenExpiry : Int
deriving DecidableEq, Repr

/-- `getBitwardenToken`: return the cached token while `now < tokenExpiry`,
otherwise perform the client-credentials exchange and cache the result with
`tokenExpiry = now + expires_in * 1000 - 60000` (expire one minute early). -/
def getBitwardenToken (st : TokenState) (now : Int)
    (authResp : Option (String × Int)) : Except Unit (String × TokenState) :=
  match st.cachedToken with
  | some t =>
    if now < st.tokenExpiry then .ok (t, st)
    else
      match authResp with
      | some (tok, expiresIn) =>
        .ok (tok, ⟨some tok, now + expiresIn * 1000 - 60000⟩)
      | none => .error ()
  | none =>
    match authResp with
    | some (tok, expiresIn) =>
      .ok (tok, ⟨some tok, now + expiresIn * 1000 - 60000⟩)
    | none => .error ()

/-- **C4** — The Session Cache never returns a cached credential at or after
its declared expiry minus the 60-second safety margin: a token obtained at
time `T` with `expires_in = E` seconds is cached with expiry
`T + E*1000 - 60000`; any call at `now ≥ T + E*1000 - 60000` performs a
fresh token exchange (or fails if the exchange fails) instead of reusing
the cached token. -/
theorem getBitwardenToken_no_stale_reuse (T E now x e2 : Int) (tok fresh : String)
    (h : T + E * 1000 - 60000 ≤ now) :
    getBitwardenToken ⟨none, x⟩ T (some (tok, E))
      = .ok (tok, ⟨some tok, T + E * 1000 - 60000⟩) ∧
    getBitwardenToken ⟨some tok, T + E * 1000 - 60000⟩ now (some (fresh, e2))
      = .ok (fresh, ⟨some fresh, now + e2 * 1000 - 60000⟩) ∧
    getBitwardenToken ⟨some tok, T + E * 1000 - 60000⟩ now none = .error () := by
  refine ⟨rfl, ?_, ?_⟩ <;>
    simp [getBitwardenToken, not_lt.mpr h]

/-- Witness for C4 at `T = 0`, `E = 3600` s, `now` exactly at expiry minus
margin. -/
theorem getBitwardenToken_no_stale_reuse_witness :
    getBitwardenToken ⟨none, 0⟩ 0 (some ("tok", 3600))
      = .ok ("tok", ⟨some "tok", 0 + 3600 * 1000 - 60000⟩) ∧
    getBitwardenToken ⟨some "tok", 0 + 3600 * 1000 - 60000⟩ 3540000 (some ("fresh", 3600))
      = .ok ("fresh", ⟨some "fresh", 3540000 + 3600 * 1000 - 60000⟩) ∧
    getBitwardenToken ⟨some "tok", 0 + 3600 * 1000 - 60000⟩ 3540000 none = .error () :=
  getBitwardenToken_no_stale_reuse 0 3600 3540000 0 3600 "tok" "fresh" (by decide)

/-! ### HTTP layer

An administration-API request either returns 2xx with an optional
`id` field in the body, fails with an HTTP status and a message field, or
fails at the transport level (no response; `axios.isAxiosError` is false).
-/

inductive HttpOutcome where
  | ok (bodyId : Option String)
  | err (status : Nat) (msg : String)
  | netErr
deriving DecidableEq, Repr

structure BitwardenInviteResult where
  success : Bool
  error : Option String
  inviteId : Option String
deriving DecidableEq, Repr

/-! ### Membership Client, OAuth lineage (src/services/bitwarden.ts,
inviteUserToBitwarden)

The invite loop tries up to five candidate endpoints; `responses` holds the
response each attempted endpoint would give, in order. The loop breaks at
the first 2xx; if none succeeds the last error is classified. -/

/-- Body of the first 2xx response, if any (the loop breaks on success). -/
def firstOkResponse : List HttpOutcome → Option (Option String)
  | [] => none
  | .ok b :: _ => some b
  | .err _ _ :: rs => firstOkResponse rs
  | .netErr :: rs => firstOkResponse rs

/-- The last response (`lastError` in the source is overwritten on every
failed attempt; it is only consulted when no attempt succeeded). -/
def lastResponse : List HttpOutcome → Option HttpOutcome
  | [] => none
  | [r] => some r
  | _ :: r :: rs => lastResponse (r :: rs)

/-- Error classification of `inviteUserToBitwarden`'s catch block:
400 with already-exists/already-invited substrings, 401, 403, 429, generic
API error, or network/system error. -/
def classifyInviteError : HttpOutcome → String
  | .ok _ => "Unknown error occurred"
  | .err status msg =>
    if status = 400 then
      if strIncludes msg "already exists" || strIncludes msg "already invited" then
        "User is already invited or exists in the organization"
      else
        "Invalid request: " ++ (if msg = "" then "Bad request" else msg)
    else if status = 401 then "Authentication failed with Bitwarden API"
    else if status = 403 then "Insufficient permissions to invite users"
    else if status = 429 then "Rate limit exceeded, please try again later"
    else "API error (" ++ toString status ++ "): "
          ++ (if msg = "" then "Unknown error" else msg)
  | .netErr => "Network or system error occurred"

/-- `inviteUserToBitwarden` (OAuth lineage): obtain a token via the Session
Cache, try the candidate endpoints until one succeeds, and on total failure
classify the last error. The token-state component of the result is the
module cache after the call: note the catch block never touches
`cachedToken`/`tokenExpiry`. -/
def inviteUserToBitwarden (st : TokenState) (now : Int)
    (authResp : Option (String × Int)) (responses : List HttpOutcome) :
    BitwardenInviteResult × TokenState :=
  match getBitwardenToken st now authResp with
  | .error _ =>
    -- the throw from getBitwardenToken is not an axios error
    (⟨false, some "Network or system error occurred", none⟩, st)
  | .ok (_, st') =>
    match firstOkResponse responses with
    | some bodyId => (⟨true, none, some (bodyId.getD "unknown")⟩, st')
    | none =>
      match lastResponse responses with
      | some r => (⟨false, some (classifyInviteError r), none⟩, st')
      | none => (⟨false, some "Network or system error occurred", none⟩, st')

/-! ### Membership Client, admin-cookie lineage (src/services/notion.ts
second document: getAdminCookies, inviteUserToVaultwarden)

Module state `adminCookies` / `cookieExpiry` becomes `CookieState`; the
admin-panel login becomes `authCookies` (`some cs` = the Set-Cookie headers
obtained, `none` = login failed). A successful login caches the cookies with
`cookieExpiry = now + 18*60*1000` (20-minute session, expire 2 minutes
early). -/

structure CookieState where
  adminCookies : List String
  cookieExpiry : Int
deriving DecidableEq, Repr

/-- `getAdminCookies`: return the cached cookies while non-empty and
`now < cookieExpiry`; otherwise authenticate against `/admin`; an empty
Set-Cookie list or a failed login throws (embedded as `Except.error`). -/
def getAdminCookies (st : CookieState) (now : Int)
    (authCookies : Option (List String)) :
    Except Unit (List String × CookieState) :=
  if st.adminCookies ≠ [] ∧ now < st.cookieExpiry then .ok (st.adminCookies, st)
  else
    match authCookies with
    | some cs =>
      if cs.isEmpty then .error ()
      else .ok (cs, ⟨cs, now + 18 * 60 * 1000⟩)
    | none => .error ()

/-- `inviteUserToVaultwarden`: obtain admin cookies, POST `/admin/invite`
once (no retry loop exists), and classify errors; **only** the 401 branch
clears the cookie cache (`adminCookies = []`, `cookieExpiry = 0`). -/
def inviteUserToVaultwarden (st : CookieState) (now : Int)
    (authCookies : Option (List String)) (resp : HttpOutcome) :
    BitwardenInviteResult × CookieState :=
  match getAdminCookies st now authCookies with
  | .error _ =>
    -- the throw from getAdminCookies is not an axios error
    (⟨false, some "Network or system error occurred", none⟩, st)
  | .ok (_, st') =>
    match resp with
    | .ok bodyId => (⟨true, none, some (bodyId.getD "admin-invite")⟩, st')
    | .err status msg =>
      if status = 401 then
        (⟨false, some "Admin authentication failed - invalid token or expired session",
          none⟩, ⟨[], 0⟩)
      else if status = 400 then
        if strIncludes msg "already" then
          (⟨false, some "User already exists or is already invited", none⟩, st')
        else
          (⟨false, some ("Invalid request: "
              ++ (if msg = "" then "Bad request" else msg)), none⟩, st')
      else if status = 409 then
        (⟨false, some "User already exists in the system", none⟩, st')
      else
        (⟨false, some ("Admin API error (" ++ toString status ++ "): "
            ++ (if msg = "" then "Unknown error" else msg)), none⟩, st')
    | .netErr => (⟨false, some "Network or system error occurred", none⟩, st')

/-- **C5, counterexample** — the claim "every downstream request receiving
HTTP 401 invalidates the cached credential (expiry set to the past) before
one caller-level retry" is false: `inviteUserToBitwarden` with a valid
cached token (`tokenExpiry = 1000000`, `now = 0`) receiving a 401 returns a
failure with the token cache **unchanged** — the cached credential is still
valid (its expiry `1000000` is in the future of `now = 0`), and no retry
with a fresh credential occurred. -/
theorem inviteUserToBitwarden_401_keeps_cache :
    (inviteUserToBitwarden ⟨some "tok", 1000000⟩ 0 none [.err 401 "Unauthorized"]).2
      = ⟨some "tok", 1000000⟩ ∧
    (inviteUserToBitwarden ⟨some "tok", 1000000⟩ 0 none [.err 401 "Unauthorized"]).1
      = ⟨false, some "Authentication failed with Bitwarden API", none⟩ ∧
    (0 : Int) < (1000000 : Int) := by
  refine ⟨rfl, rfl, by decide⟩

/-- **C5, amended** — On HTTP 401, the admin-cookie client
(`inviteUserToVaultwarden`) invalidates the cached cookies (clears them and
sets the expiry to 0) and surfaces an authentication error without any
retry, while the OAuth client (`inviteUserToBitwarden`) surfaces an
authentication error leaving its cached token untouched; neither path
performs a caller-level retry (each issues its requests exactly once). -/
theorem invite_on_401 (cst : CookieState) (now : Int)
    (ac : Option (List String)) (msg : String)
    (hc : cst.adminCookies ≠ []) (he : now < cst.cookieExpiry)
    (tst : TokenState) (tok : String)
    (ht : tst.cachedToken = some tok) (hte : now < tst.tokenExpiry) :
    (inviteUserToVaultwarden cst now ac (.err 401 msg)).2 = ⟨[], 0⟩ ∧
    (inviteUserToVaultwarden cst now ac (.err 401 msg)).1.success = false ∧
    (inviteUserToBitwarden tst now none [.err 401 msg]).2 = tst ∧
    (inviteUserToBitwarden tst now none [.err 401 msg]).1.success = false := by
  refine ⟨?_, ?_, ?_, ?_⟩ <;>
    simp [inviteUserToVaultwarden, inviteUserToBitwarden, getAdminCookies,
      getBitwardenToken, hc, he, ht, hte, firstOkResponse, lastResponse,
      classifyInviteError]

/-- Witness for the amended C5 at concrete states. -/
theorem invite_on_401_witness :
    (inviteUserToVaultwarden ⟨["c=1"], 500⟩ 0 none (.err 401 "x")).2 = ⟨[], 0⟩ ∧
    (inviteUserToVaultwarden ⟨["c=1"], 500⟩ 0 none (.err 401 "x")).1.success = false ∧
    (inviteUserToBitwarden ⟨some "tok", 500⟩ 0 none [.err 401 "x"]).2
      = ⟨some "tok", 500⟩ ∧
    (inviteUserToBitwarden ⟨some "tok", 500⟩ 0 none [.err 401 "x"]).1.success = false :=
  invite_on_401 ⟨["c=1"], 500⟩ 0 none "x" (by decide) (by decide)
    ⟨some "tok", 500⟩ "tok" rfl (by decide)

/-! ### Scheduled confirmation job (src/services/bitwarden.ts second
document: processPendingConfirmations, setupScheduledJobs)

`confirmMember member.id` becomes the oracle `confirmOracle : String → Bool`
(the source function returns a boolean and never throws — its catch block
returns `false`). The second component of the result is the list of member
ids for which a confirm call against the administration API was issued. -/

structure PendingMember where
  id : String
  email : String
  status : Int
  type : Int
deriving DecidableEq, Repr

structure ConfirmRun where
  confirmed : Nat
  failed : Nat
  errors : List String
deriving DecidableEq, Repr

/-- The per-member loop of `processPendingConfirmations`: confirm each
pending member, counting successes and recording failures. -/
def confirmPass (confirmOracle : String → Bool) :
    List PendingMember → ConfirmRun × List String
  | [] => (⟨0, 0, []⟩, [])
  | m :: ms =>
    let (r, calls) := confirmPass confirmOracle ms
    if confirmOracle m.id then
      (⟨r.confirmed + 1, r.failed, r.errors⟩, m.id :: calls)
    else
      (⟨r.confirmed, r.failed + 1, ("Failed to confirm " ++ m.email) :: r.errors⟩,
        m.id :: calls)

/-- `processPendingConfirmations`: fetch all members, keep those with
`status === 1` (Accepted but not yet confirmed) and confirm each of them. -/
def processPendingConfirmations (members : List PendingMember)
    (confirmOracle : String → Bool) : ConfirmRun × List String :=
  confirmPass confirmOracle (members.filter (fun m => m.status == 1))

/-- `setupScheduledJobs` registers two recurring cron schedules (business
hours every 30 minutes, after hours every 2 hours) whose callbacks both run
`processPendingConfirmations`. -/
def setupScheduledJobs : List String :=
  ["*/30 9-18 * * 1-5", "0 */2 * * *"]

/-- The confirm calls issued by one `confirmPass` are exactly the ids of the
processed members. -/
theorem confirmPass_calls (confirmOracle : String → Bool)
    (ms : List PendingMember) :
    (confirmPass confirmOracle ms).2 = ms.map (·.id) := by
  induction ms with
  | nil => rfl
  | cons m ms ih =>
    simp only [confirmPass, List.map_cons]
    by_cases h : confirmOracle m.id = true <;> simp [h, ih]

/-- **C2, counterexample** — the claim "no automated (scheduled/background)
code path ever issues a confirm call against the vault administration API"
is false: `setupScheduledJobs` registers cron schedules whose callback is
`processPendingConfirmations`, and that job, run over a member list holding
one member with status 1 (Accepted), issues a confirm call for that member
with no operator involved. -/
theorem scheduled_job_issues_confirm :
    setupScheduledJobs ≠ [] ∧
    (processPendingConfirmations [⟨"m1", "ada@example.com", 1, 2⟩]
        (fun _ => true)).2 = ["m1"] := by
  refine ⟨by decide, rfl⟩

/-- **C2, amended** — Confirmation is not exclusively operator-invoked: the
scheduled background job `processPendingConfirmations` (registered on both
cron schedules of `setupScheduledJobs`) automatically issues a confirm call
for exactly the members whose status is 1 (Accepted). -/
theorem processPendingConfirmations_confirms_accepted
    (members : List PendingMember) (confirmOracle : String → Bool) :
    (processPendingConfirmations members confirmOracle).2
      = (members.filter (fun m => m.status == 1)).map (·.id) :=
  confirmPass_calls confirmOracle _

/-! ### Retention Policy Job (src/services/bitwarden.ts third document:
cleanupInactiveUsers)

Vaultwarden admin user records: `PasswordHash` and `UserEnabled` keep the
JavaScript truthiness semantics of the source (`user.PasswordHash &&
user.PasswordHash.length > 0`, `user.UserEnabled !== false`); timestamps are
milliseconds. -/

structure VwUser where
  Id : String
  Email : String
  CreatedAt : Option Int
  LastActive : Option Int
  UserEnabled : Option Bool
  PasswordHash : Option String
deriving DecidableEq, Repr

/-- `user.PasswordHash && user.PasswordHash.length > 0`. -/
def hasPasswordSet (u : VwUser) : Bool :=
  match u.PasswordHash with
  | some s => decide (0 < s.length)
  | none => false

/-- `user.UserEnabled !== false` (true for `true` and for absent). -/
def userIsEnabled (u : VwUser) : Bool :=
  !(u.UserEnabled == some false)

/-- One day in milliseconds. -/
def dayMs : Int := 24 * 60 * 60 * 1000

/-- `optBefore o t` — the source pattern `x && x < t` on an optional
timestamp: false when absent. -/
def optBefore (o : Option Int) (t : Int) : Bool :=
  match o with
  | some x => decide (x < t)
  | none => false

inductive Verdict where
  | delete (reason : String)
  | retain
deriving DecidableEq, Repr

/-- The per-member classification of `cleanupInactiveUsers`, evaluated in
priority order with first match winning:
1. no password set and created more than 7 days ago;
2. disabled and last active more than 30 days ago;
3. last active more than 90 days ago;
4. otherwise retain. -/
def classifyUser (now : Int) (hasPassword : Bool) (createdAt lastActive : Option Int)
    (isEnabled : Bool) : Verdict :=
  if !hasPassword && optBefore createdAt (now - 7 * dayMs) then
    .delete "Never set password after 7 days"
  else if !isEnabled && optBefore lastActive (now - 30 * dayMs) then
    .delete "Disabled and inactive for 30+ days"
  else if optBefore lastActive (now - 90 * dayMs) then
    .delete "No activity for 90+ days"
  else
    .retain

/-- Classification of a Vaultwarden user record. -/
def classifyVwUser (now : Int) (u : VwUser) : Verdict :=
  classifyUser now (hasPasswordSet u) u.CreatedAt u.LastActive (userIsEnabled u)

/-- **C7** — The retention classification evaluates its rules in priority
order with first match winning: rule 1 (no password, created more than
7 days ago), then rule 2 (disabled, last active more than 30 days ago),
then rule 3 (last active more than 90 days ago, regardless of enabled
state), otherwise retain; in particular a member with a password set, last
active 95 days ago and enabled is classified delete-inactive, not retain. -/
theorem classifyUser_priority_order (now : Int) (hp en : Bool)
    (ca la : Option Int) :
    ((!hp && optBefore ca (now - 7 * dayMs)) = true →
      classifyUser now hp ca la en = .delete "Never set password after 7 days") ∧
    ((!hp && optBefore ca (now - 7 * dayMs)) = false →
      (!en && optBefore la (now - 30 * dayMs)) = true →
      classifyUser now hp ca la en = .delete "Disabled and inactive for 30+ days") ∧
    ((!hp && optBefore ca (now - 7 * dayMs)) = false →
      (!en && optBefore la (now - 30 * dayMs)) = false →
      optBefore la (now - 90 * dayMs) = true →
      classifyUser now hp ca la en = .delete "No activity for 90+ days") ∧
    ((!hp && optBefore ca (now - 7 * dayMs)) = false →
      (!en && optBefore la (now - 30 * dayMs)) = false →
      optBefore la (now - 90 * dayMs) = false →
      classifyUser now hp ca la en = .retain) ∧
    (∀ ca2 : Option Int,
      classifyUser now true ca2 (some (now - 95 * dayMs)) true
        = .delete "No activity for 90+ days") := by
  refine ⟨fun h1 => ?_, fun h1 h2 => ?_, fun h1 h2 h3 => ?_, fun h1 h2 h3 => ?_,
    fun ca2 => ?_⟩
  · simp [classifyUser, h1]
  · simp [classifyUser, h1, h2]
  · simp [classifyUser, h1, h2, h3]
  · simp [classifyUser, h1, h2, h3]
  · have h95 : optBefore (some (now - 95 * dayMs)) (now - 90 * dayMs) = true := by
      simp [optBefore, dayMs]
    simp [classifyUser, h95]

/-- Witness for C7: rule 1 fires on a passwordless 8-day-old account, and a
member with a password, enabled, last active 95 days ago is deleted as
inactive. -/
theorem classifyUser_priority_order_witness :
    classifyUser 0 false (some (-(8 * dayMs))) none true
      = .delete "Never set password after 7 days" ∧
    classifyUser 0 true none (some (-(95 * dayMs))) true
      = .delete "No activity for 90+ days" :=
  ⟨(classifyUser_priority_order 0 false true (some (-(8 * dayMs))) none).1
      (by decide),
    by
      have h := (classifyUser_priority_order 0 true true none
        (some (-(95 * dayMs)))).2.2.2.2 none
      simpa using h⟩

/-- **C10** — When `LastActive` is absent, rules 2 and 3 never apply: such a
member is deleted only by rule 1 (no password set and created more than
7 days ago), and a member with a password set but no recorded activity is
always retained, whatever the enabled state and account age. -/
theorem classifyUser_no_lastActive (now : Int) (hp en : Bool) (ca : Option Int) :
    (∀ r, classifyUser now hp ca none en = .delete r →
      r = "Never set password after 7 days" ∧ hp = false ∧
        optBefore ca (now - 7 * dayMs) = true) ∧
    (hp = true → classifyUser now hp ca none en = .retain) := by
  constructor
  · intro r hr
    cases hp with
    | true => simp [classifyUser, optBefore] at hr
    | false =>
      cases hca : optBefore ca (now - 7 * dayMs) with
      | false =>
        have h2 : optBefore (none : Option Int) (now - 30 * dayMs) = false := rfl
        have h3 : optBefore (none : Option Int) (now - 90 * dayMs) = false := rfl
        simp [classifyUser, hca, h2, h3] at hr
      | true =>
        have hc : classifyUser now false ca none en
            = .delete "Never set password after 7 days" := by
          simp [classifyUser, hca]
        rw [hc] at hr
        injection hr with h
        exact ⟨h.symm, rfl, rfl⟩
  · intro hhp
    subst hhp
    simp [classifyUser, optBefore]

/-- Witness for C10: an enabled=false, 100-day-old account with a password
and no recorded activity is retained. -/
theorem classifyUser_no_lastActive_witness :
    classifyUser 0 true (some (-(100 * dayMs))) none false = .retain :=
  (classifyUser_no_lastActive 0 true false (some (-(100 * dayMs)))).2 rfl

/-! ### The cleanup run itself (cleanupInactiveUsers, per-member loop)

`deleteVaultwardenUser` never throws (its catch block returns `false`), so
it becomes the oracle `deleteOracle : String → Bool` keyed by `user.Id`. -/

structure ScheduledJobResult where
  totalUsers : Nat
  activeUsers : Nat
  inactiveUsers : Nat
  deleted : Nat
  errors : List String
deriving DecidableEq, Repr

/-- The per-member loop of `cleanupInactiveUsers`: classify each user; for a
delete verdict call the delete oracle, counting a success in `deleted` and
recording a failure in `errors`; in both cases continue with the rest of the
list. Returns `(activeUsers, inactiveUsers, deleted, errors)`. -/
def cleanupPass (now : Int) (deleteOracle : String → Bool) :
    List VwUser → Nat × Nat × Nat × List String
  | [] => (0, 0, 0, [])
  | u :: us =>
    let (act, inact, del, errs) := cleanupPass now deleteOracle us
    match classifyVwUser now u with
    | .delete _ =>
      if deleteOracle u.Id then (act, inact + 1, del + 1, errs)
      else (act, inact + 1, del, ("Failed to delete " ++ u.Email) :: errs)
    | .retain => (act + 1, inact, del, errs)

/-- `cleanupInactiveUsers` over an already-fetched user list. -/
def cleanupInactiveUsers (now : Int) (deleteOracle : String → Bool)
    (users : List VwUser) : ScheduledJobResult :=
  let r := cleanupPass now deleteOracle users
  ⟨users.length, r.1, r.2.1, r.2.2.1, r.2.2.2⟩


/-- Every member of the list is processed by a cleanup pass: the active and
inactive counts sum to the list length (no per-member outcome terminates the
loop). -/
theorem cleanupPass_counts (now : Int) (oracle : String → Bool)
    (us : List VwUser) :
    (cleanupPass now oracle us).1 + (cleanupPass now oracle us).2.1 = us.length := by
  induction us with
  | nil => rfl
  | cons v vs ih =>
    rcases hres : cleanupPass now oracle vs with ⟨act, inact, del, errs⟩
    rw [hres] at ih
    dsimp only at ih
    simp only [cleanupPass, hres]
    cases classifyVwUser now v with
    | delete r =>
      by_cases hd : oracle v.Id = true
      · simp [hd]
        omega
      · simp only [Bool.not_eq_true] at hd
        simp [hd]
        omega
    | retain =>
      simp
      omega

/-- A member with a delete verdict whose delete call fails contributes a
"Failed to delete" entry to the error list of the pass. -/
theorem cleanupPass_records_failure (now : Int) (oracle : String → Bool)
    (us : List VwUser) (u : VwUser) (hu : u ∈ us)
    (hv : ∃ r, classifyVwUser now u = .delete r) (ho : oracle u.Id = false) :
    ("Failed to delete " ++ u.Email) ∈ (cleanupPass now oracle us).2.2.2 := by
  induction us with
  | nil => exact absurd hu (List.not_mem_nil u)
  | cons v vs ih =>
    rcases hres : cleanupPass now oracle vs with ⟨act, inact, del, errs⟩
    simp only [cleanupPass, hres]
    rcases List.mem_cons.mp hu with heq | htail
    · subst heq
      rcases hv with ⟨r, hr⟩
      simp [hr, ho]
    · have hmem := ih htail
      rw [hres] at hmem
      dsimp only at hmem
      cases classifyVwUser now v with
      | delete r =>
        by_cases hd : oracle v.Id = true
        · simpa [hd] using hmem
        · simp only [Bool.not_eq_true] at hd
          simp [hd]
          exact Or.inr hmem
      | retain => simpa using hmem

/-- **C8** — A failure to delete one member is recorded in the run's error
list and the pass continues: the failed member's error message is in
`errors`, and every member of the list is still processed (each is counted
either active or inactive, so the counts sum to the list length). -/
theorem cleanupInactiveUsers_failure_not_fatal (now : Int)
    (deleteOracle : String → Bool) (users : List VwUser) (u : VwUser)
    (hu : u ∈ users) (hv : ∃ r, classifyVwUser now u = .delete r)
    (ho : deleteOracle u.Id = false) :
    ("Failed to delete " ++ u.Email)
        ∈ (cleanupInactiveUsers now deleteOracle users).errors ∧
    (cleanupInactiveUsers now deleteOracle users).activeUsers
        + (cleanupInactiveUsers now deleteOracle users).inactiveUsers
      = users.length :=
  ⟨cleanupPass_records_failure now deleteOracle users u hu hv ho,
    cleanupPass_counts now deleteOracle users⟩

/-- Witness for C8: one passwordless 8-day-old member whose delete call
fails is recorded and still counted. -/
theorem cleanupInactiveUsers_failure_not_fatal_witness :
    ("Failed to delete " ++ "ada@example.com")
        ∈ (cleanupInactiveUsers 0 (fun _ => false)
            [⟨"u1", "ada@example.com", some (-(8 * dayMs)), none, some true, none⟩]).errors ∧
    (cleanupInactiveUsers 0 (fun _ => false)
          [⟨"u1", "ada@example.com", some (-(8 * dayMs)), none, some true, none⟩]).activeUsers
        + (cleanupInactiveUsers 0 (fun _ => false)
            [⟨"u1", "ada@example.com", some (-(8 * dayMs)), none, some true, none⟩]).inactiveUsers
      = 1 :=
  cleanupInactiveUsers_failure_not_fatal 0 (fun _ => false)
    [⟨"u1", "ada@example.com", some (-(8 * dayMs)), none, some true, none⟩]
    ⟨"u1", "ada@example.com", some (-(8 * dayMs)), none, some true, none⟩
    (List.mem_singleton.mpr rfl)
    ⟨"Never set password after 7 days", by decide⟩
    rfl

/-! ### User-facing error mapping (src/utils/errors.ts, mapErrorToUserMessage) -/

structure ErrorMapping where
  title : String
  description : String
deriving DecidableEq, Repr

/-- `mapErrorToUserMessage`: the single explicit mapping is the
"user in invalid state" substring (case-insensitive); every other
**nonempty** error message passes through verbatim under the title
"Error!"; only an empty (or whitespace-only) message falls back to the
generic contact-support message. -/
def mapErrorToUserMessage (errorMessage : String) : ErrorMapping :=
  let errorMsg := lowerStr errorMessage
  if strIncludes errorMsg "user in invalid state" then
    ⟨"Account Setup Required",
      "You haven\x27t created an account or accepted the invitation. Please check your email, create your account on the password manager website, then try confirmation again."⟩
  else if jsTrim errorMessage ≠ "" then
    ⟨"Error!", jsTrim errorMessage⟩
  else
    ⟨"Something Went Wrong",
      "An unexpected error occurred. Contact the projects team for help."⟩

/-- **C9, counterexample** — the claim "every error not in the explicit
mapping table produces the generic contact-support fallback, and the output
never contains internal identifiers from the underlying error" is false: an
unmapped error carrying an internal request identifier is passed through
verbatim as the user-facing description, and the title is not the generic
fallback. -/
theorem mapErrorToUserMessage_passthrough :
    (mapErrorToUserMessage
        "Request failed with status code 500 at internal request id 8f3a2b").description
      = "Request failed with status code 500 at internal request id 8f3a2b" ∧
    (mapErrorToUserMessage
        "Request failed with status code 500 at internal request id 8f3a2b").title
      ≠ "Something Went Wrong" := by
  exact ⟨by decide, by decide⟩

/-- **C9, amended** — Only the "user in invalid state" error is explicitly
mapped; any other error whose trimmed message is nonempty is shown to the
user verbatim under the title "Error!", and only an empty or
whitespace-only error message yields the generic contact-support
fallback. -/
theorem mapErrorToUserMessage_fallback (s : String)
    (h : strIncludes (lowerStr s) "user in invalid state" = false) :
    (jsTrim s ≠ "" → mapErrorToUserMessage s = ⟨"Error!", jsTrim s⟩) ∧
    (jsTrim s = "" → mapErrorToUserMessage s
        = ⟨"Something Went Wrong",
            "An unexpected error occurred. Contact the projects team for help."⟩) := by
  constructor
  · intro ht
    simp [mapErrorToUserMessage, h, ht]
  · intro ht
    simp [mapErrorToUserMessage, h, ht]

/-- Witness for the amended C9: a rate-limit message is passed through; a
whitespace-only message falls back. -/
theorem mapErrorToUserMessage_fallback_witness :
    mapErrorToUserMessage "Rate limit exceeded, please try again later"
      = ⟨"Error!", "Rate limit exceeded, please try again later"⟩ ∧
    mapErrorToUserMessage "  "
      = ⟨"Something Went Wrong",
          "An unexpected error occurred. Contact the projects team for help."⟩ :=
  ⟨(mapErrorToUserMessage_fallback "Rate limit exceeded, please try again later"
      (by decide)).1 (by decide),
    (mapErrorToUserMessage_fallback "  " (by decide)).2 (by decide)⟩

/-! ### Confirm flows

Two operator-invoked confirm command handlers exist in the repository:
the `confirm-membership` handler (third document of
src/bot/commands/request-vault.ts), which fetches the target's public key
before confirming, and the `/confirm vault` handler (src/unnamed/part_002),
which does not. `getUserByEmail` becomes the `user` parameter,
`getUserPublicKey` the `publicKey` parameter, and `confirmUserMembership`
the `(confirmOk, confirmErr)` parameters; the second component of the
result is the list of vault-API calls issued. -/

structure MemberRec where
  id : String
  userId : String
  email : String
  name : String
  status : Int
  twoFactorEnabled : Bool
deriving DecidableEq, Repr

inductive ConfirmCall where
  | publicKeyFetch (userId : String)
  | confirm (orgUserId : String) (userId : String)
deriving DecidableEq, Repr

inductive ConfirmOutcome where
  | userNotFound
  | alreadyConfirmed
  | publicKeyNotAvailable
  | confirmedOk
  | confirmFailed (title : String) (description : String)
deriving DecidableEq, Repr

/-- The `confirm-membership` handler: find the user; short-circuit when
already confirmed (status 2); fetch the public key and, when it is absent,
return the informational "Public Key Not Available" result without any
confirm call; otherwise confirm. -/
def confirmMembershipExecute (user : Option MemberRec) (publicKey : Option String)
    (confirmOk : Bool) (confirmErr : String) : ConfirmOutcome × List ConfirmCall :=
  match user with
  | none => (.userNotFound, [])
  | some u =>
    if u.status == 2 then (.alreadyConfirmed, [])
    else
      match publicKey with
      | none => (.publicKeyNotAvailable, [.publicKeyFetch u.userId])
      | some _ =>
        if confirmOk then
          (.confirmedOk, [.publicKeyFetch u.userId, .confirm u.id u.userId])
        else
          (.confirmFailed "Confirmation Failed" confirmErr,
            [.publicKeyFetch u.userId, .confirm u.id u.userId])

/-- The `/confirm vault` handler (src/unnamed/part_002): find the user;
short-circuit when already confirmed; otherwise call
`confirmUserMembership` directly — **no public-key fetch happens**. -/
def confirmVaultExecute (user : Option MemberRec) (confirmOk : Bool)
    (confirmErr : String) : ConfirmOutcome × List ConfirmCall :=
  match user with
  | none => (.userNotFound, [])
  | some u =>
    if u.status == 2 then (.alreadyConfirmed, [])
    else
      if confirmOk then (.confirmedOk, [.confirm u.id u.userId])
      else (.confirmFailed "Confirmation Failed" confirmErr, [.confirm u.id u.userId])

/-- **C6, counterexample** — the claim "in every confirm flow for a member
not yet confirmed the public key is fetched first" is false: the
`/confirm vault` handler, for a member with status 1 (Accepted), issues the
confirm call directly and its call list contains no public-key fetch at
all. -/
theorem confirmVaultExecute_skips_publicKey :
    (confirmVaultExecute (some ⟨"org1", "user1", "ada@example.com", "Ada", 1, false⟩)
        true "").2
      = [.confirm "org1" "user1"] ∧
    ∀ k, ConfirmCall.publicKeyFetch k
        ∉ (confirmVaultExecute
            (some ⟨"org1", "user1", "ada@example.com", "Ada", 1, false⟩) true "").2 := by
  refine ⟨rfl, ?_⟩
  intro k
  simp [confirmVaultExecute]

/-- **C6, amended** — In the `confirm-membership` flow for a member not yet
confirmed, the public key is fetched first (it is the first issued call),
and when it is unavailable the flow returns the informational
"Public Key Not Available" result and issues no call to the confirm
endpoint; the `/confirm vault` flow however confirms without fetching the
public key. -/
theorem confirmMembershipExecute_publicKey_first (u : MemberRec)
    (pk : Option String) (ok : Bool) (err : String) (h : ¬u.status = 2) :
    (confirmMembershipExecute (some u) pk ok err).2.head?
      = some (.publicKeyFetch u.userId) ∧
    (pk = none →
      confirmMembershipExecute (some u) pk ok err
        = (.publicKeyNotAvailable, [.publicKeyFetch u.userId])) := by
  constructor
  · cases pk with
    | none => simp [confirmMembershipExecute, h]
    | some k =>
      by_cases hok : ok = true <;> simp [confirmMembershipExecute, h, hok]
  · intro hpk
    subst hpk
    simp [confirmMembershipExecute, h]

/-- Witness for the amended C6 at a concrete accepted member with no public
key. -/
theorem confirmMembershipExecute_publicKey_first_witness :
    (confirmMembershipExecute
        (some ⟨"org1", "user1", "ada@example.com", "Ada", 1, false⟩) none true "").2.head?
      = some (.publicKeyFetch "user1") ∧
    confirmMembershipExecute
        (some ⟨"org1", "user1", "ada@example.com", "Ada", 1, false⟩) none true ""
      = (.publicKeyNotAvailable, [.publicKeyFetch "user1"]) :=
  ⟨(confirmMembershipExecute_publicKey_first
      ⟨"org1", "user1", "ada@example.com", "Ada", 1, false⟩ none true "" (by decide)).1,
    (confirmMembershipExecute_publicKey_first
      ⟨"org1", "user1", "ada@example.com", "Ada", 1, false⟩ none true "" (by decide)).2 rfl⟩

/-! ### Provisioning flow (src/bot/commands/vault-invite.ts, execute)

After the email-format check, the handler looks up the directory
(`lookupUserTeam` becomes the `userInfo` parameter), looks up the existing
membership record (`getUserByEmail` becomes `existingUser`), and drives the
lifecycle: reinvite for status 0 (Invited) or 1 (Accepted), informational
short-circuit for status 2 (Confirmed), and a fresh invite otherwise.
`reinviteUser` / `inviteUserToVaultwarden` become `(ok, error)` result
pairs; the second component of the result is the list of vault-mutating
calls issued. -/

structure UserInfo where
  name : String
  email : String
  team : String
  discordUsername : Option String
deriving DecidableEq, Repr

inductive VaultCall where
  | reinvite (orgUserId : String)
  | invite (email : String)
deriving DecidableEq, Repr

inductive VaultInviteOutcome where
  | emailNotFoundInDirectory
  | alreadyConfirmed
  | invitationResent
  | reinviteFailed (title : String) (description : String)
  | invitationSent
  | inviteFailed (title : String) (description : String)
deriving DecidableEq, Repr

/-- The `/invite vault` handler after a passed email-format check. Failed
reinvites and invites are rendered through `mapErrorToUserMessage`
(`result.error || ''`). -/
def vaultInviteExecute (email : String) (userInfo : Option UserInfo)
    (existingUser : Option MemberRec)
    (reinviteRes inviteRes : Bool × Option String) :
    VaultInviteOutcome × List VaultCall :=
  match userInfo with
  | none => (.emailNotFoundInDirectory, [])
  | some _ =>
    match existingUser with
    | some u =>
      if u.status == 2 then (.alreadyConfirmed, [])
      else if u.status == 0 || u.status == 1 then
        if reinviteRes.1 then (.invitationResent, [.reinvite u.id])
        else
          let em := mapErrorToUserMessage ((reinviteRes.2).getD "")
          (.reinviteFailed em.title em.description, [.reinvite u.id])
      else
        if inviteRes.1 then (.invitationSent, [.invite email])
        else
          let em := mapErrorToUserMessage ((inviteRes.2).getD "")
          (.inviteFailed em.title em.description, [.invite email])
    | none =>
      if inviteRes.1 then (.invitationSent, [.invite email])
      else
        let em := mapErrorToUserMessage ((inviteRes.2).getD "")
        (.inviteFailed em.title em.description, [.invite email])

/-- **C3** — In the provisioning flow, when the directory lookup succeeded
and the target already has a membership record: status 0 (Invited) or
1 (Accepted) leads to exactly one reinvite call (never a fresh invite),
reporting the invitation-resent message on success; status 2 (Confirmed)
returns the informational already-confirmed result with no vault-mutating
call at all. -/
theorem vaultInviteExecute_existing_member (email : String) (ui : UserInfo)
    (u : MemberRec) (rr ir : Bool × Option String) :
    (u.status = 0 ∨ u.status = 1 →
      (vaultInviteExecute email (some ui) (some u) rr ir).2 = [.reinvite u.id] ∧
      (rr.1 = true →
        (vaultInviteExecute email (some ui) (some u) rr ir).1 = .invitationResent)) ∧
    (u.status = 2 →
      vaultInviteExecute email (some ui) (some u) rr ir = (.alreadyConfirmed, [])) := by
  constructor
  · intro hs
    have hs2 : ¬(u.status == 2) = true := by
      rcases hs with h | h <;> simp [h]
    have hs01 : (u.status == 0 || u.status == 1) = true := by
      rcases hs with h | h <;> simp [h]
    constructor
    · by_cases hr : rr.1 = true <;>
        simp [vaultInviteExecute, hs2, hs01, hr]
    · intro hr
      simp [vaultInviteExecute, hs2, hs01, hr]
  · intro hs
    simp [vaultInviteExecute, hs]

/-- Witness for C3 at a concrete accepted member (status 1) with a
successful reinvite, and a concrete confirmed member (status 2). -/
theorem vaultInviteExecute_existing_member_witness :
    (vaultInviteExecute "ada@example.com" (some ⟨"Ada", "ada@example.com", "Design", none⟩)
        (some ⟨"org1", "user1", "ada@example.com", "Ada", 1, false⟩)
        (true, none) (true, none)).2 = [.reinvite "org1"] ∧
    (vaultInviteExecute "ada@example.com" (some ⟨"Ada", "ada@example.com", "Design", none⟩)
        (some ⟨"org1", "user1", "ada@example.com", "Ada", 1, false⟩)
        (true, none) (true, none)).1 = .invitationResent ∧
    vaultInviteExecute "ada@example.com" (some ⟨"Ada", "ada@example.com", "Design", none⟩)
        (some ⟨"org2", "user2", "ada@example.com", "Ada", 2, false⟩)
        (true, none) (true, none) = (.alreadyConfirmed, []) := by
  have h1 := (vaultInviteExecute_existing_member "ada@example.com"
    ⟨"Ada", "ada@example.com", "Design", none⟩
    ⟨"org1", "user1", "ada@example.com", "Ada", 1, false⟩
    (true, none) (true, none)).1 (Or.inr rfl)
  have h2 := (vaultInviteExecute_existing_member "ada@example.com"
    ⟨"Ada", "ada@example.com", "Design", none⟩
    ⟨"org2", "user2", "ada@example.com", "Ada", 2, false⟩
    (true, none) (true, none)).2 rfl
  exact ⟨h1.1, h1.2 rfl, h2⟩


/-! ### Access Policy Resolver

The resolver (`resolveGrants` / `getCollectionNamesForRole`) is imported by
the `/invite vault` handler but its defining module is not among the source
files of this repository snapshot; it is modelled from the specification
(§4.2 and the testable properties of §8). -/

structure AccessGrant where
  collectionId : String
  readOnly : Bool
  hidePasswords : Bool
  manage : Bool
deriving DecidableEq, Repr

/-- A collection grant with default flags. -/
def mkGrant (c : String) : AccessGrant :=
  ⟨c, false, false, false⟩

/-- Modelled from the spec: the role→collections lookup of the Access Policy
Resolver, whose defining module is missing from the source snapshot (only
its caller `getCollectionNamesForRole` appears, in
src/bot/commands/vault-invite.ts). Lookup is case-insensitive fallback: the
exact role string, then the lower-cased role string, then the configured
default policy — which grants no role-specific collections, since for roles
not present in the table the resolver returns exactly the baseline grant. -/
def resolveRoleCollections (table : List (String × List String))
    (role : String) : List String :=
  match table.lookup role with
  | some cs => cs
  | none =>
    match table.lookup (lowerStr role) with
    | some cs => cs
    | none => []

/-- Deduplicate a grant list by collection identity, keeping first
occurrences. -/
def dedupGrants (gs : List AccessGrant) : List AccessGrant :=
  gs.foldl
    (fun acc g =>
      if acc.any (fun h => h.collectionId == g.collectionId) then acc
      else acc ++ [g])
    []

/-- Modelled from the spec: `resolveGrants` of the Access Policy Resolver
(missing from the source snapshot): resolve the role to its collections,
always append the baseline ("All Teams"-equivalent) collection if not
already present, and deduplicate by collection identity. -/
def resolveGrants (table : List (String × List String)) (baseline : String)
    (role : String) : List AccessGrant :=
  let cols := resolveRoleCollections table role
  let grants := cols.map mkGrant
  let withBase :=
    if cols.contains baseline then grants else grants ++ [mkGrant baseline]
  dedupGrants withBase

/-- `dedupGrants` preserves the set of collection ids. -/
theorem mem_dedupGrants_ids (gs : List AccessGrant) (c : String) :
    c ∈ (dedupGrants gs).map (·.collectionId)
      ↔ c ∈ gs.map (·.collectionId) := by
  suffices key : ∀ (gs acc : List AccessGrant),
      (c ∈ (List.foldl
          (fun acc g =>
            if acc.any (fun h => h.collectionId == g.collectionId) then acc
            else acc ++ [g])
          acc gs).map (·.collectionId))
        ↔ c ∈ acc.map (·.collectionId) ∨ c ∈ gs.map (·.collectionId) by
    simpa [dedupGrants] using key gs []
  intro gs
  induction gs with
  | nil => intro acc; simp
  | cons g gs ih =>
    intro acc
    simp only [List.foldl_cons]
    by_cases hg : acc.any (fun h => h.collectionId == g.collectionId) = true
    · rw [if_pos hg, ih acc]
      have hga : g.collectionId ∈ acc.map (·.collectionId) := by
        rcases List.any_eq_true.mp hg with ⟨h, hmem, hbeq⟩
        have heq : h.collectionId = g.collectionId := by simpa using hbeq
        exact heq ▸ List.mem_map_of_mem (·.collectionId) hmem
      constructor
      · rintro (hacc | hgs)
        · exact Or.inl hacc
        · exact Or.inr (by simp [hgs])
      · rintro (hacc | hcons)
        · exact Or.inl hacc
        · rcases (by simpa using hcons :
              c = g.collectionId ∨ c ∈ gs.map (·.collectionId)) with hceq | hgs
          · exact Or.inl (hceq ▸ hga)
          · exact Or.inr hgs
    · rw [if_neg hg, ih (acc ++ [g])]
      simp only [List.map_append, List.map_cons, List.map_nil, List.mem_append,
        List.mem_cons, List.mem_singleton, List.not_mem_nil, or_false, or_assoc]

/-- **C1** — The baseline ("All Teams"-equivalent) collection grant is
present in every grant set produced by the resolver, whatever the role; and
for a role not present in the policy table (neither exactly nor
lower-cased) the resolved grant set is exactly the baseline grant. -/
theorem resolveGrants_baseline (table : List (String × List String))
    (baseline role : String) :
    baseline ∈ (resolveGrants table baseline role).map (·.collectionId) ∧
    (table.lookup role = none → table.lookup (lowerStr role) = none →
      resolveGrants table baseline role = [mkGrant baseline]) := by
  constructor
  · have h : baseline ∈
        ((if (resolveRoleCollections table role).contains baseline
          then (resolveRoleCollections table role).map mkGrant
          else (resolveRoleCollections table role).map mkGrant
                ++ [mkGrant baseline])).map (·.collectionId) := by
      by_cases hb : (resolveRoleCollections table role).contains baseline
      · rw [if_pos hb]
        have hmem : baseline ∈ resolveRoleCollections table role := by
          simpa [List.contains, List.elem_iff] using hb
        simpa [List.map_map, Function.comp, mkGrant] using hmem
      · rw [if_neg hb]
        simp [mkGrant]
    have h2 := (mem_dedupGrants_ids _ baseline).mpr h
    simpa [resolveGrants] using h2
  · intro h1 h2
    have hcols : resolveRoleCollections table role = [] := by
      simp [resolveRoleCollections, h1, h2]
    simp [resolveGrants, hcols, dedupGrants]

/-- Witness for C1: with the policy table mapping role "design" to the
Design collection, an unknown role resolves to exactly the baseline grant,
and the baseline id is present for the known role "design" too. -/
theorem resolveGrants_baseline_witness :
    resolveGrants [("design", ["Design"])] "All Teams" "Marketing"
      = [mkGrant "All Teams"] ∧
    "All Teams" ∈ (resolveGrants [("design", ["Design"])] "All Teams" "design").map
        (·.collectionId) :=
  ⟨(resolveGrants_baseline [("design", ["Design"])] "All Teams" "Marketing").2
      (by decide) (by decide),
    (resolveGrants_baseline [("design", ["Design"])] "All Teams" "design").1⟩
